import Mathlib

/-!
Verification of `datumaro`'s fractal image generator
(`datumaro/plugins/synthetic_data/image_generator.py`) and of the
atomic-replace patching logic in `datumaro/components/converter.py`.

The Python code is shallowly embedded: pure computations become Lean
functions, Python floats become exact rationals (`ℚ`), numpy arrays become
lists, and the stateful pseudo-random generator (`random.Random`, an
external library object) is modelled as an explicit state threaded through
the computation.
-/

namespace Datumaro

/-- `IFSFunction.NUM_PARAMS`: the six affine coefficients `a, b, c, d, e, f`
unpacked at `image_generator.py` line 164. -/
def NUM_PARAMS : Nat := 6

/-- Ceiling division on naturals, the exact value of `np.ceil(a / b)` for the
moderate operand sizes used here (float division is exact below `2^53`). -/
def ceilDivNat (a b : Nat) : Nat := (a + b - 1) / b

/-- Ceiling of the real square root of a natural number, the exact value of
`np.ceil(np.sqrt(n))` (float sqrt is correctly rounded). -/
def ceilSqrt (n : Nat) : Nat :=
  if Nat.sqrt n * Nat.sqrt n = n then Nat.sqrt n else Nat.sqrt n + 1

/-- `FractalImageGenerator._create_weights` (lines 183–197): the base
all-ones vector followed by, for each coordinate, four single-coordinate
perturbations at offsets `{-2, -1, 1, 2} * 0.4`. -/
def createWeights (numParams : Nat) : List (List ℚ) :=
  let BASE : List ℚ := List.replicate numParams 1
  let WEIGHT_INTERVAL : ℚ := 2/5
  let INTERVAL_MULTIPLIERS : List ℚ := [-2, -1, 1, 2]
  BASE :: (List.range numParams).flatMap (fun weightIndex =>
    INTERVAL_MULTIPLIERS.map (fun multiplier =>
      BASE.set weightIndex (1 + multiplier * WEIGHT_INTERVAL)))

/-- Result of `FractalImageGenerator._initialize_params` (lines 175–181):
the truncated weight-vector count, the per-category instance count and the
category count. -/
structure PlanParams where
  weightsCount : Nat
  instances : Nat
  categories : Nat
  deriving DecidableEq, Repr

/-- `FractalImageGenerator._initialize_params` (lines 175–181): truncate the
weight set to `count` rows when `count < W`, then compute
`instances = ceil(sqrt(ceil(count / W')))` and
`categories = ceil(ceil(count / W') / instances)`. -/
def initializeParams (count w : Nat) : PlanParams :=
  let wTrunc := min w count
  let instancesCategories := ceilDivNat count wTrunc
  let instances := ceilSqrt instancesCategories
  let categories := ceilDivNat instancesCategories instances
  ⟨wTrunc, instances, categories⟩

/-- `np.repeat(l, k, axis=0)`: each element repeated `k` times contiguously. -/
def repeatEach (l : List α) (k : Nat) : List α := l.flatMap (List.replicate k)

/-- `np.tile(l, (k, 1))`: the whole sequence repeated `k` times. -/
def tileList (l : List α) (k : Nat) : List α := (List.replicate k l).flatten

/-- Section sizes of `np.array_split(l, n)`: the first `len % n` sections get
`len / n + 1` elements, the remaining `n - len % n` get `len / n`. -/
def splitSizes (len n : Nat) : List Nat :=
  List.replicate (len % n) (len / n + 1) ++ List.replicate (n - len % n) (len / n)

/-- Cut a list into consecutive chunks of the given sizes. -/
def takeDropChunks : List Nat → List α → List (List α)
  | [], _ => []
  | s :: ss, l => l.take s :: takeDropChunks ss (l.drop s)

/-- `np.array_split(l, n)`: `n` contiguous near-equal sections. -/
def arraySplit (l : List α) (n : Nat) : List (List α) :=
  takeDropChunks (splitSizes l.length n) l

/-- The generator state assembled by `FractalImageGenerator.__init__`
(lines 35–56): requested count, target shape, worker count
`min(os.cpu_count(), count)`, the (possibly truncated) weight vectors and
the planner outputs, plus the fixed tuning constants of lines 50–52. -/
structure Config where
  outputDir : String
  count : Nat
  height : Int
  width : Int
  cpuCount : Nat
  weights : List (List ℚ)
  threshold : ℚ
  iterations : Nat
  numOfPoints : Nat
  instances : Nat
  categories : Nat
  deriving DecidableEq, Repr

/-- `FractalImageGenerator.__init__` (lines 35–56).  The `assert 0 < count`
is the first statement; the `ValueError` of `_download_colorization_model`
(raised when no cached model files exist and the model directory is not
writable, an I/O condition abstracted as `modelAccessOk`) comes before
`_initialize_params`.  `shape` is a pair, so the `len(shape) == 2` assert
always passes; the height and width are stored without any positivity
check. -/
def initGenerator (outputDir : String) (count : Int) (shape : Int × Int)
    (osCpuCount : Nat) (modelAccessOk : Bool) : Except String Config :=
  if count ≤ 0 then .error "Image count cannot be lesser than 1"
  else if ¬ modelAccessOk then
    .error "Please provide a path to a colorization model or a path to a writable directory to download the model"
  else
    let n := count.toNat
    let weights0 := createWeights NUM_PARAMS
    let plan := initializeParams n weights0.length
    .ok { outputDir := outputDir, count := n, height := shape.1,
          width := shape.2, cpuCount := min osCpuCount n,
          weights := weights0.take plan.weightsCount,
          threshold := 1/5, iterations := 200000, numOfPoints := 100000,
          instances := plan.instances, categories := plan.categories }

/-- Line 82–83: `np.repeat(params, W * instances, axis=0)[: count]` — the
per-job category parameters, truncated to the requested count. -/
def jobParams (cfg : Config) (params : List α) : List α :=
  (repeatEach params (cfg.weights.length * cfg.instances)).take cfg.count

/-- Lines 79–80 and 84: `np.tile(np.repeat(weights, instances, axis=0),
(categories, 1))[: count]` — the per-job weight vectors, truncated. -/
def jobWeights (cfg : Config) : List (List ℚ) :=
  (tileList (repeatEach cfg.weights cfg.instances) cfg.categories).take cfg.count

/-- Line 87: `splits = min(self._cpu_count, self._count)`. -/
def splitsOf (cfg : Config) : Nat := min cfg.cpuCount cfg.count

/-- Lines 91–96: pair each batch with the contiguous global-index range
starting at the running offset. -/
def assignIndices : Nat → List (List α × List β) → List (List α × List β × List Nat)
  | _, [] => []
  | offset, (p, w) :: rest =>
    (p, w, List.range' offset p.length) :: assignIndices (offset + p.length) rest

/-- Lines 87–96 of `generate_dataset`: split the truncated job arrays into
`splits` batches and assign every batch its global-index range. -/
def generationParams (cfg : Config) (params : List α) :
    List (List α × List (List ℚ) × List Nat) :=
  assignIndices 0 ((arraySplit (jobParams cfg params) (splitsOf cfg)).zip
    (arraySplit (jobWeights cfg) (splitsOf cfg)))

/-- Modelled from the spec: the state obtained by seeding Python's
`random.Random(seed)` (the standard library PRNG is not part of this
repository); a deterministic pure function of the seed alone. -/
def randomInit (seed : Nat) : Nat := seed % 2147483648

/-- Modelled from the spec: one draw of the deterministic pseudo-random
generator, as a linear-congruential step returning the drawn value and the
successor state. -/
def randNext (s : Nat) : Nat × Nat :=
  let t := (1103515245 * s + 12345) % 2147483648
  (t, t)

/-- `n`-fold iteration of the generator state transition. -/
def lcgIter : Nat → Nat → Nat
  | 0, s => s
  | n + 1, s => lcgIter n (randNext s).2

/-- One row of the `(param_size, NUM_PARAMS + 1)` array built at lines
160–168: six affine coefficients and the selection weight stored in the
last column. -/
structure AffineRow where
  a : ℚ
  b : ℚ
  c : ℚ
  d : ℚ
  e : ℚ
  f : ℚ
  p : ℚ
  deriving DecidableEq, Repr

/-- A category parameter set: an ordered list of affine maps. -/
abbrev CatParams := List AffineRow

/-- Modelled from the spec: roulette-wheel selection of an affine map by the
normalized selection weights (the selection loop lives in `utils.IFSFunction`,
which is not among the given sources). -/
def rouletteSelect : CatParams → ℚ → AffineRow
  | [], _ => ⟨0, 0, 0, 0, 0, 0, 0⟩
  | [m], _ => m
  | m :: ms, u => if u < m.p then m else rouletteSelect ms (u - m.p)

/-- Modelled from the spec: apply one affine map to a point, with the
per-image weight vector perturbing the six coefficients (missing entries
default to the neutral weight 1, covering the `weight=None` case). -/
def applyMap (m : AffineRow) (wv : List ℚ) (pt : ℚ × ℚ) : ℚ × ℚ :=
  (m.a * wv.getD 0 1 * pt.1 + m.b * wv.getD 1 1 * pt.2 + m.e * wv.getD 4 1,
   m.c * wv.getD 2 1 * pt.1 + m.d * wv.getD 3 1 * pt.2 + m.f * wv.getD 5 1)

/-- Modelled from the spec: affine-to-pixel-space mapping of a visited
point onto a `height × width` grid. -/
def toPixel (height width : Int) (pt : ℚ × ℚ) : Int × Int :=
  (⌊(pt.1 + 1) / 2 * height⌋, ⌊(pt.2 + 1) / 2 * width⌋)

/-- Modelled from the spec: the chaotic-map iteration of
`utils.IFSFunction.calculate`/`draw` (not among the given sources).  Each
step draws one value from the generator, selects a map, moves the point and
records the visited pixel; returns the visited pixels in order together
with the final generator state. -/
def ifsRun (maps : CatParams) (wv : List ℚ) (height width : Int) :
    Nat → Nat → ℚ × ℚ → List (Int × Int) × Nat
  | 0, s, _ => ([], s)
  | n + 1, s, pt =>
    let d := randNext s
    let m := rouletteSelect maps ((d.1 : ℚ) / 2147483648)
    let pt1 := applyMap m wv pt
    let rest := ifsRun maps wv height width n d.2 pt1
    (toPixel height width pt1 :: rest.1, rest.2)

/-- `FractalImageGenerator._generate_image` (lines 136–153), with the final
generator state exposed. -/
def generateImageS (rng : Nat) (maps : CatParams) (iterations : Nat)
    (height width : Int) (wv : List ℚ) : List (Int × Int) × Nat :=
  ifsRun maps wv height width iterations rng (0, 0)

/-- `FractalImageGenerator._generate_image` (lines 136–153): the rendered
raster, a deterministic function of the generator state, the category
parameters, the iteration budget, the shape and the weight vector. -/
def generateImage (rng : Nat) (maps : CatParams) (iterations : Nat)
    (height width : Int) (wv : List ℚ) : List (Int × Int) :=
  (generateImageS rng maps iterations height width wv).1

/-- A post-processed image: the chosen background color and the colorized
foreground raster. -/
structure AugImage where
  bgColor : ℚ
  fg : List (Int × Int)
  deriving DecidableEq, Repr

/-- Modelled from the spec: `utils.augment` (not among the given sources)
draws a background color from the supplied generator and composites the
foreground against it. -/
def augment (rng : Nat) (img : List (Int × Int)) (backgroundColors : List ℚ) :
    AugImage :=
  let d := randNext rng
  { bgColor := backgroundColors.getD (d.1 % backgroundColors.length) 0, fg := img }

/-- The body of the loop at lines 120–134 of `_generate_image_batch`:
synthesize with a generator freshly seeded from the global index `i`
(`Random(i)`, line 122), colorize with the externally loaded network, then
augment with another generator freshly seeded from `i` (`Random(i)`,
line 131). -/
def generateOneImage (cfg : Config)
    (colorizeF : List (Int × Int) → List (Int × Int))
    (backgroundColors : List ℚ) (i : Nat) (param : CatParams) (w : List ℚ) :
    AugImage :=
  let image := generateImage (randomInit i) param cfg.iterations cfg.height
    cfg.width w
  let colorImage := colorizeF image
  augment (randomInit i) colorImage backgroundColors

/-- `FractalImageGenerator._generate_image_batch` (lines 105–134), returning
the `(global index, final image)` pairs instead of writing files. -/
def generateImageBatch (cfg : Config)
    (colorizeF : List (Int × Int) → List (Int × Int))
    (backgroundColors : List ℚ) (params : List CatParams)
    (weights : List (List ℚ)) (indices : List Nat) : List (Nat × AugImage) :=
  (indices.zip (params.zip weights)).map fun t =>
    (t.1, generateOneImage cfg colorizeF backgroundColors t.1 t.2.1 t.2.2)

/-- Phase 2 of `generate_dataset` (lines 98–103): every batch is processed
by `_generate_image_batch`; outputs collected in batch order. -/
def pipelineOutputs (cfg : Config)
    (colorizeF : List (Int × Int) → List (Int × Int))
    (backgroundColors : List ℚ) (params : List CatParams) :
    List (Nat × AugImage) :=
  (generationParams cfg params).flatMap fun t =>
    generateImageBatch cfg colorizeF backgroundColors t.1 t.2.1 t.2.2

/-- Modelled from the spec: `rng.uniform(-1.0, 1.0)` of Python's standard
library generator — one draw mapped into `[-1, 1]`. -/
def uniformR (s : Nat) : ℚ × Nat :=
  let d := randNext s
  (-1 + 2 * ((d.1 : ℚ) / 2147483648), d.2)

/-- Modelled from the spec: `rng.randint(lo, hi)` (inclusive bounds) of
Python's standard library generator. -/
def randIntR (s : Nat) (lo hi : Nat) : Nat × Nat :=
  let d := randNext s
  (lo + d.1 % (hi - lo + 1), d.2)

/-- Lines 163–167: draw the six coefficients sequentially and derive the
unnormalized selection weight `|a*d - b*c|`. -/
def makeRow (s : Nat) : AffineRow × Nat :=
  let da := uniformR s
  let db := uniformR da.2
  let dc := uniformR db.2
  let dd := uniformR dc.2
  let de := uniformR dd.2
  let df := uniformR de.2
  (⟨da.1, db.1, dc.1, dd.1, de.1, df.1,
    |da.1 * dd.1 - db.1 * dc.1|⟩, df.2)

/-- The row loop of lines 163–167. -/
def makeRows : Nat → Nat → List AffineRow × Nat
  | 0, s => ([], s)
  | n + 1, s =>
    let r := makeRow s
    let rest := makeRows n r.2
    (r.1 :: rest.1, rest.2)

/-- Lines 159–168: one candidate parameter set — `param_size = randint(2,7)`
rows, then the selection weights divided by `sum_proba`, which starts at
`1e-5` before the row weights are accumulated. -/
def makeCandidate (s : Nat) : CatParams × Nat :=
  let dn := randIntR s 2 7
  let rows := makeRows dn.1 dn.2
  let sumProba : ℚ := 1/100000 + (rows.1.map (·.p)).sum
  (rows.1.map fun r => { r with p := r.p / sumProba }, rows.2)

/-- The set of visited in-bounds pixels: the value of
`np.count_nonzero(fractal_img)` for the visited-mask raster. -/
def countNonzero (height width : Int) (img : List (Int × Int)) : Nat :=
  (img.filter (fun pt =>
    decide (0 ≤ pt.1) && decide (pt.1 < height) &&
    decide (0 ≤ pt.2) && decide (pt.2 < width))).dedup.length

/-- One iteration of the rejection-sampling loop body (lines 159–171):
generate a candidate, render it at the canonical 512×512 resolution with
`num_of_points` iterations and no weight vector, and measure the
nonzero-pixel fraction. -/
def generateCategoryStep (numOfPoints : Nat) (s : Nat) : CatParams × ℚ × Nat :=
  let cand := makeCandidate s
  let img := generateImageS cand.2 cand.1 numOfPoints 512 512 []
  let pixels : ℚ := (countNonzero 512 512 img.1 : ℚ) / (512 * 512)
  (cand.1, pixels, img.2)

/-- The `while pixels < threshold and i < iterations` loop of lines
156–172, as guard-checked structural recursion on a fuel count.  The guard
requires `i < cap` and every iteration increments `i`, so the loop body can
run at most `cap` times; with `cap + 1` fuel the recursion is therefore
never cut short and the function computes exactly the while loop (the
characterization lemma below is fuel-independent for any sufficient
fuel). -/
def genCatGo (threshold : ℚ) (cap numOfPoints : Nat) :
    Nat → Nat → CatParams → ℚ → Nat → CatParams
  | 0, _, params, _, _ => params
  | fuel + 1, i, params, pixels, s =>
    if pixels < threshold ∧ i < cap then
      let st := generateCategoryStep numOfPoints s
      genCatGo threshold cap numOfPoints fuel (i + 1) st.1 st.2.1 st.2.2
    else params

/-- `FractalImageGenerator._generate_category` (lines 155–173) with
`pixels = -1`, `i = 0` initially; the loop always runs at least once when
`cap ≥ 1`, so the junk initial parameter list is never returned then. -/
def generateCategory (threshold : ℚ) (cap numOfPoints : Nat) (rng : Nat) :
    CatParams :=
  genCatGo threshold cap numOfPoints (cap + 1) 0 [] (-1) rng

/-- The generator state before attempt `j` of the rejection-sampling loop. -/
def candState (numOfPoints s : Nat) : Nat → Nat
  | 0 => s
  | j + 1 => (generateCategoryStep numOfPoints (candState numOfPoints s j)).2.2

/-- The candidate parameter set and density measured at attempt `j`. -/
def candAt (numOfPoints s j : Nat) : CatParams × ℚ :=
  let st := generateCategoryStep numOfPoints (candState numOfPoints s j)
  (st.1, st.2.1)

/-- The sum of the absolute affine determinants `|a*d - b*c|` of a category
parameter set (the unnormalized selection mass of §3 of the spec). -/
def detSum (ps : CatParams) : ℚ := (ps.map fun r => |r.a * r.d - r.b * r.c|).sum

/-- The configuration produced by `initGenerator "o" 3 (2, 2) 2 true`,
used as a concrete instance in witnesses. -/
def exampleConfig : Config :=
  { outputDir := "o", count := 3, height := 2, width := 2, cpuCount := 2,
    weights := (createWeights NUM_PARAMS).take 3, threshold := 1/5,
    iterations := 200000, numOfPoints := 100000, instances := 1,
    categories := 1 }

/-- A small synthesis configuration used as a concrete instance in
witnesses that evaluate the image pipeline. -/
def smallConfig : Config :=
  { outputDir := "s", count := 2, height := 4, width := 4, cpuCount := 3,
    weights := [[1, 1, 1, 1, 1, 1]], threshold := 1/5, iterations := 1,
    numOfPoints := 1, instances := 2, categories := 1 }

namespace Converter

/-- An abstract filesystem: each directory path maps to its contents
(`none` when the directory does not exist). -/
abbrev FS : Type := String → Option Nat

/-- Create, overwrite or remove one directory. -/
def setDir (fs : FS) (path : String) (contents : Option Nat) : FS :=
  fun p => if p = path then contents else fs p

/-- `Converter.patch` (converter.py lines 79–107) over the abstract
filesystem.  `conv` abstracts `cls.convert` (implemented by subclasses): it
writes into the directory it is given and reports success or failure.  When
`save_dir` does not exist, convert directly into it.  Otherwise create the
fresh temporary directory `tmpdir` (`mkdtemp`), convert into it, and only
on success remove `save_dir` and rename `tmpdir` onto it (`rmtree` +
`os.replace`); on failure the registered `on_error_do(rmtree, tmpdir)`
removes the temporary directory and the error propagates. -/
def patch (conv : String → FS → Except String Nat × FS) (fs : FS)
    (saveDir tmpdir : String) : Except String Nat × FS :=
  if (fs saveDir).isNone then conv saveDir fs
  else
    let fs1 := setDir fs tmpdir (some 0)
    let r := conv tmpdir fs1
    match r.1 with
    | .error e => (.error e, setDir r.2 tmpdir none)
    | .ok v => (.ok v, setDir (setDir r.2 saveDir (r.2 tmpdir)) tmpdir none)

end Converter

lemma ceilDivNat_pos {a b : Nat} (ha : 1 ≤ a) (hb : 1 ≤ b) :
    1 ≤ ceilDivNat a b := by
  unfold ceilDivNat
  exact Nat.le_div_iff_mul_le hb |>.mpr (by omega)

lemma le_ceilDivNat_mul {a b : Nat} (hb : 1 ≤ b) :
    a ≤ ceilDivNat a b * b := by
  unfold ceilDivNat
  rw [Nat.mul_comm]
  have h := Nat.div_add_mod (a + b - 1) b
  have hm : (a + b - 1) % b < b := Nat.mod_lt _ hb
  omega

lemma ceilSqrt_pos {n : Nat} (hn : 1 ≤ n) : 1 ≤ ceilSqrt n := by
  unfold ceilSqrt
  have h := Nat.sqrt_pos (n := n)
  split
  · omega
  · omega

lemma le_ceilSqrt_sq (n : Nat) : n ≤ ceilSqrt n * ceilSqrt n := by
  unfold ceilSqrt
  split
  · omega
  · have h := Nat.lt_succ_sqrt n
    simpa [Nat.succ_eq_add_one] using h.le

/-- C2 over-provisioning invariant of the planner. -/
lemma initializeParams_spec {count w : Nat} (hc : 1 ≤ count) (hw : 1 ≤ w) :
    count ≤ (initializeParams count w).categories *
      (initializeParams count w).instances *
      (initializeParams count w).weightsCount ∧
    1 ≤ (initializeParams count w).instances ∧
    1 ≤ (initializeParams count w).categories := by
  unfold initializeParams
  simp only
  have hwt : 1 ≤ min w count := le_min hw hc
  have hic : 1 ≤ ceilDivNat count (min w count) := ceilDivNat_pos hc hwt
  have hinst : 1 ≤ ceilSqrt (ceilDivNat count (min w count)) := ceilSqrt_pos hic
  have hcat : 1 ≤ ceilDivNat (ceilDivNat count (min w count))
      (ceilSqrt (ceilDivNat count (min w count))) := ceilDivNat_pos hic hinst
  refine ⟨?_, hinst, hcat⟩
  have h1 : ceilDivNat count (min w count) ≤
      ceilDivNat (ceilDivNat count (min w count))
        (ceilSqrt (ceilDivNat count (min w count))) *
      ceilSqrt (ceilDivNat count (min w count)) :=
    le_ceilDivNat_mul hinst
  have h2 : count ≤ ceilDivNat count (min w count) * min w count :=
    le_ceilDivNat_mul hwt
  calc count ≤ ceilDivNat count (min w count) * min w count := h2
    _ ≤ (ceilDivNat (ceilDivNat count (min w count))
          (ceilSqrt (ceilDivNat count (min w count))) *
        ceilSqrt (ceilDivNat count (min w count))) * min w count :=
      Nat.mul_le_mul_right _ h1

lemma repeatEach_length (l : List α) (k : Nat) :
    (repeatEach l k).length = l.length * k := by
  rw [repeatEach, List.length_flatMap]
  rw [show List.map (List.length ∘ List.replicate k) l = List.replicate l.length k
    from by simp [Function.comp_def, List.map_const']]
  rw [List.sum_replicate, smul_eq_mul]

lemma tileList_length (l : List α) (k : Nat) :
    (tileList l k).length = k * l.length := by
  rw [tileList, List.length_flatten, List.map_replicate, List.sum_replicate,
    smul_eq_mul]

lemma createWeights_length (p : Nat) :
    (createWeights p).length = 1 + 4 * p := by
  simp [createWeights, List.length_flatMap, Function.comp_def,
    List.map_const', List.sum_replicate, smul_eq_mul, List.length_range]
  omega

lemma takeDropChunks_flatten (sizes : List Nat) (l : List α) :
    (takeDropChunks sizes l).flatten = l.take sizes.sum := by
  induction sizes generalizing l with
  | nil => simp [takeDropChunks]
  | cons s ss ih =>
    simp [takeDropChunks, List.sum_cons, ih, List.take_add]

lemma takeDropChunks_length (sizes : List Nat) (l : List α) :
    (takeDropChunks sizes l).length = sizes.length := by
  induction sizes generalizing l with
  | nil => simp [takeDropChunks]
  | cons s ss ih => simp [takeDropChunks, ih]

lemma takeDropChunks_map_length (sizes : List Nat) (l : List α)
    (h : sizes.sum ≤ l.length) :
    (takeDropChunks sizes l).map List.length = sizes := by
  induction sizes generalizing l with
  | nil => simp [takeDropChunks]
  | cons s ss ih =>
    have hs : s ≤ l.length := by
      have := List.sum_cons (a := s) (l := ss); omega
    have hss : ss.sum ≤ (l.drop s).length := by
      simp [List.length_drop]
      have := List.sum_cons (a := s) (l := ss); omega
    simp [takeDropChunks, List.length_take, ih _ hss, Nat.min_eq_left hs]

lemma splitSizes_sum {len n : Nat} (hn : 1 ≤ n) :
    (splitSizes len n).sum = len := by
  have h := Nat.div_add_mod len n
  have hr : len % n < n := Nat.mod_lt _ hn
  simp [splitSizes, List.sum_replicate, smul_eq_mul]
  have e1 : len % n * (len / n + 1) = len % n * (len / n) + len % n := by ring
  have e2 : (n - len % n) * (len / n) =
      n * (len / n) - len % n * (len / n) := by
    rw [Nat.sub_mul]
  have e3 : len % n * (len / n) ≤ n * (len / n) :=
    Nat.mul_le_mul_right _ hr.le
  omega

lemma splitSizes_length {len n : Nat} (hn : 1 ≤ n) :
    (splitSizes len n).length = n := by
  have hr : len % n < n := Nat.mod_lt _ hn
  simp [splitSizes]
  omega

lemma splitSizes_mem {len n : Nat} {s : Nat} (h : s ∈ splitSizes len n) :
    s = len / n ∨ s = len / n + 1 := by
  simp [splitSizes, List.mem_append, List.mem_replicate] at h
  omega

lemma arraySplit_flatten (l : List α) {n : Nat} (hn : 1 ≤ n) :
    (arraySplit l n).flatten = l := by
  rw [arraySplit, takeDropChunks_flatten, splitSizes_sum hn, List.take_length]

lemma arraySplit_length (l : List α) {n : Nat} (hn : 1 ≤ n) :
    (arraySplit l n).length = n := by
  rw [arraySplit, takeDropChunks_length, splitSizes_length hn]

lemma arraySplit_map_length (l : List α) {n : Nat} (hn : 1 ≤ n) :
    (arraySplit l n).map List.length = splitSizes l.length n := by
  rw [arraySplit, takeDropChunks_map_length]
  rw [splitSizes_sum hn]

lemma arraySplit_mem_length {l : List α} {n : Nat} {c : List α}
    (hn : 1 ≤ n) (hc : c ∈ arraySplit l n) :
    c.length = l.length / n ∨ c.length = l.length / n + 1 := by
  have : c.length ∈ (arraySplit l n).map List.length := List.mem_map_of_mem _ hc
  rw [arraySplit_map_length l hn] at this
  exact splitSizes_mem this

lemma zip_map_len_eq {L1 : List (List α)} {L2 : List (List β)}
    (h : L1.map List.length = L2.map List.length) :
    ∀ t ∈ L1.zip L2, t.1.length = t.2.length := by
  induction L1 generalizing L2 with
  | nil => simp
  | cons x xs ih =>
    cases L2 with
    | nil => simp
    | cons y ys =>
      simp only [List.map_cons, List.cons.injEq] at h
      intro t ht
      simp only [List.zip_cons_cons, List.mem_cons] at ht
      rcases ht with rfl | ht
      · exact h.1
      · exact ih h.2 t ht

lemma assignIndices_length (l : List (List α × List β)) (offset : Nat) :
    (assignIndices offset l).length = l.length := by
  induction l generalizing offset with
  | nil => simp [assignIndices]
  | cons x xs ih =>
    obtain ⟨p, w⟩ := x
    simp [assignIndices, ih]

lemma assignIndices_map_idxlen (l : List (List α × List β)) (offset : Nat) :
    (assignIndices offset l).map (fun t => t.2.2.length) =
      l.map (fun t => t.1.length) := by
  induction l generalizing offset with
  | nil => simp [assignIndices]
  | cons x xs ih =>
    obtain ⟨p, w⟩ := x
    simp [assignIndices, List.length_range', ih]

lemma assignIndices_flatMap_idx (l : List (List α × List β)) (offset : Nat) :
    ((assignIndices offset l).flatMap fun t => t.2.2) =
      List.range' offset ((l.map fun t => t.1.length).sum) := by
  induction l generalizing offset with
  | nil => simp [assignIndices]
  | cons x xs ih =>
    obtain ⟨p, w⟩ := x
    simp only [assignIndices, List.flatMap_cons, List.map_cons, List.sum_cons,
      ih]
    have h1 := List.range'_append offset p.length
      ((xs.map fun t => t.1.length).sum) 1
    simp only [Nat.one_mul] at h1
    rw [h1, Nat.add_comm p.length]

lemma assignIndices_flatMap_fst (l : List (List α × List β)) (offset : Nat) :
    ((assignIndices offset l).flatMap fun t => t.1) = l.flatMap (fun t => t.1) := by
  induction l generalizing offset with
  | nil => simp [assignIndices]
  | cons x xs ih =>
    obtain ⟨p, w⟩ := x
    simp [assignIndices, ih]

lemma assignIndices_flatMap_snd (l : List (List α × List β)) (offset : Nat) :
    ((assignIndices offset l).flatMap fun t => t.2.1) =
      l.flatMap (fun t => t.2) := by
  induction l generalizing offset with
  | nil => simp [assignIndices]
  | cons x xs ih =>
    obtain ⟨p, w⟩ := x
    simp [assignIndices, ih]

lemma assignIndices_mem {l : List (List α × List β)} {offset : Nat}
    {t : List α × List β × List Nat} (ht : t ∈ assignIndices offset l) :
    (t.1, t.2.1) ∈ l := by
  induction l generalizing offset with
  | nil => simp [assignIndices] at ht
  | cons x xs ih =>
    obtain ⟨p, w⟩ := x
    simp only [assignIndices, List.mem_cons] at ht
    rcases ht with rfl | ht
    · simp
    · exact List.mem_cons_of_mem _ (ih ht)

lemma assignIndices_flatMap_jobs (l : List (List α × List β)) (offset : Nat)
    (h : ∀ t ∈ l, t.1.length = t.2.length) :
    ((assignIndices offset l).flatMap fun t => t.2.2.zip (t.1.zip t.2.1)) =
      (List.range' offset ((l.map fun t => t.1.length).sum)).zip
        ((l.flatMap fun t => t.1).zip (l.flatMap fun t => t.2)) := by
  induction l generalizing offset with
  | nil => simp [assignIndices]
  | cons x xs ih =>
    obtain ⟨p, w⟩ := x
    have hpw : p.length = w.length := h (p, w) (List.mem_cons_self _ _)
    have hrest : ∀ t ∈ xs, t.1.length = t.2.length := fun t ht =>
      h t (List.mem_cons_of_mem _ ht)
    simp only [assignIndices, List.flatMap_cons, List.map_cons, List.sum_cons]
    rw [ih _ hrest]
    have h1 := List.range'_append offset p.length
      ((xs.map fun t => t.1.length).sum) 1
    simp only [Nat.one_mul] at h1
    rw [Nat.add_comm p.length ((xs.map fun t => t.1.length).sum), ← h1]
    rw [List.zip_append hpw, List.zip_append (by
      simp [List.length_range', List.length_zip, hpw])]

lemma initGenerator_eq_ok {o : String} {c : Int} {shape : Int × Int}
    {k : Nat} {a : Bool} {cfg : Config}
    (h : initGenerator o c shape k a = .ok cfg) :
    0 < c ∧ a = true ∧
    cfg = { outputDir := o, count := c.toNat, height := shape.1,
            width := shape.2, cpuCount := min k c.toNat,
            weights := (createWeights NUM_PARAMS).take
              (initializeParams c.toNat
                (createWeights NUM_PARAMS).length).weightsCount,
            threshold := 1/5, iterations := 200000, numOfPoints := 100000,
            instances := (initializeParams c.toNat
              (createWeights NUM_PARAMS).length).instances,
            categories := (initializeParams c.toNat
              (createWeights NUM_PARAMS).length).categories } := by
  unfold initGenerator at h
  split at h
  · exact absurd h (by simp)
  · split at h
    · exact absurd h (by simp)
    · rename_i hc ha
      simp only [Except.ok.injEq] at h
      exact ⟨by omega, by simpa using ha, h.symm⟩

lemma initGenerator_good {o : String} {c : Int} {shape : Int × Int}
    {k : Nat} {a : Bool} {cfg : Config}
    (h : initGenerator o c shape k a = .ok cfg) :
    1 ≤ cfg.count ∧
    cfg.count ≤ cfg.categories * (cfg.weights.length * cfg.instances) ∧
    1 ≤ cfg.weights.length ∧ 1 ≤ cfg.instances ∧ 1 ≤ cfg.categories ∧
    cfg.cpuCount = min k cfg.count := by
  obtain ⟨hc, -, rfl⟩ := initGenerator_eq_ok h
  have hcount : 1 ≤ c.toNat := by omega
  have hwlen : (createWeights NUM_PARAMS).length = 25 := by
    rw [createWeights_length]
    decide
  have hplan := initializeParams_spec hcount
    (w := (createWeights NUM_PARAMS).length) (by omega)
  have htake : ((createWeights NUM_PARAMS).take
      (initializeParams c.toNat
        (createWeights NUM_PARAMS).length).weightsCount).length =
      (initializeParams c.toNat (createWeights NUM_PARAMS).length).weightsCount := by
    rw [List.length_take]
    have : (initializeParams c.toNat
        (createWeights NUM_PARAMS).length).weightsCount ≤
        (createWeights NUM_PARAMS).length := by
      simp [initializeParams]
    omega
  have hwpos : 1 ≤ (initializeParams c.toNat
      (createWeights NUM_PARAMS).length).weightsCount := by
    simp [initializeParams]
    omega
  refine ⟨hcount, ?_, ?_, hplan.2.1, hplan.2.2, rfl⟩
  · simp only [htake]
    calc c.toNat ≤ (initializeParams c.toNat
          (createWeights NUM_PARAMS).length).categories *
        (initializeParams c.toNat
          (createWeights NUM_PARAMS).length).instances *
        (initializeParams c.toNat
          (createWeights NUM_PARAMS).length).weightsCount := hplan.1
      _ = _ := by ring
  · simp only [htake]
    exact hwpos

lemma jobParams_length (cfg : Config) (params : List α)
    (h : cfg.count ≤ params.length * (cfg.weights.length * cfg.instances)) :
    (jobParams cfg params).length = cfg.count := by
  rw [jobParams, List.length_take, repeatEach_length]
  omega

lemma jobWeights_length (cfg : Config)
    (h : cfg.count ≤ cfg.categories * (cfg.weights.length * cfg.instances)) :
    (jobWeights cfg).length = cfg.count := by
  rw [jobWeights, List.length_take, tileList_length, repeatEach_length]
  omega

lemma splitsOf_pos {cfg : Config} (h1 : 1 ≤ cfg.cpuCount)
    (h2 : 1 ≤ cfg.count) : 1 ≤ splitsOf cfg := by
  rw [splitsOf]
  omega

/-- The truncated per-job parameter and weight arrays always have the same
length (both are truncations to `count` of arrays of identical length when
`params` has one entry per category). -/
lemma jobArrays_length_eq (cfg : Config) (params : List α)
    (hp : params.length = cfg.categories) :
    (jobParams cfg params).length = (jobWeights cfg).length := by
  rw [jobParams, jobWeights, List.length_take, List.length_take,
    repeatEach_length, tileList_length, repeatEach_length, hp]

lemma arraySplit_zip_map_len (cfg : Config) (params : List α)
    (hs : 1 ≤ splitsOf cfg) :
    ((arraySplit (jobParams cfg params) (splitsOf cfg)).zip
      (arraySplit (jobWeights cfg) (splitsOf cfg))).map (fun t => t.1.length) =
    (arraySplit (jobParams cfg params) (splitsOf cfg)).map List.length := by
  have hlen : (arraySplit (jobParams cfg params) (splitsOf cfg)).length =
      (arraySplit (jobWeights cfg) (splitsOf cfg)).length := by
    rw [arraySplit_length _ hs, arraySplit_length _ hs]
  calc ((arraySplit (jobParams cfg params) (splitsOf cfg)).zip
        (arraySplit (jobWeights cfg) (splitsOf cfg))).map (fun t => t.1.length)
      = (((arraySplit (jobParams cfg params) (splitsOf cfg)).zip
        (arraySplit (jobWeights cfg) (splitsOf cfg))).map Prod.fst).map
          List.length := by rw [List.map_map]; rfl
    _ = _ := by rw [List.map_fst_zip _ _ (le_of_eq hlen)]

lemma arraySplit_chunk_lengths (cfg : Config) (params : List α)
    (hp : params.length = cfg.categories) (hs : 1 ≤ splitsOf cfg) :
    (arraySplit (jobParams cfg params) (splitsOf cfg)).map List.length =
    (arraySplit (jobWeights cfg) (splitsOf cfg)).map List.length := by
  rw [arraySplit_map_length _ hs, arraySplit_map_length _ hs,
    jobArrays_length_eq cfg params hp]

lemma generationParams_length (cfg : Config) (params : List α)
    (hs : 1 ≤ splitsOf cfg) :
    (generationParams cfg params).length = splitsOf cfg := by
  rw [generationParams, assignIndices_length, List.length_zip,
    arraySplit_length _ hs, arraySplit_length _ hs, min_self]

lemma generationParams_flat_idx (cfg : Config) (params : List α)
    (hs : 1 ≤ splitsOf cfg) :
    ((generationParams cfg params).flatMap fun t => t.2.2) =
      List.range' 0 (jobParams cfg params).length := by
  rw [generationParams, assignIndices_flatMap_idx,
    arraySplit_zip_map_len cfg params hs, arraySplit_map_length _ hs,
    splitSizes_sum hs]

lemma generationParams_idxlen_sum (cfg : Config) (params : List α)
    (hs : 1 ≤ splitsOf cfg) :
    ((generationParams cfg params).map fun t => t.2.2.length).sum =
      (jobParams cfg params).length := by
  rw [generationParams, assignIndices_map_idxlen,
    arraySplit_zip_map_len cfg params hs, arraySplit_map_length _ hs,
    splitSizes_sum hs]

lemma zip_flatMap_fst {L1 : List (List α)} {L2 : List (List β)}
    (h : L1.length = L2.length) :
    ((L1.zip L2).flatMap fun t => t.1) = L1.flatten := by
  induction L1 generalizing L2 with
  | nil => simp
  | cons x xs ih =>
    cases L2 with
    | nil => simp at h
    | cons y ys =>
      simp only [List.length_cons, Nat.add_right_cancel_iff] at h
      simp [ih h]

lemma zip_flatMap_snd {L1 : List (List α)} {L2 : List (List β)}
    (h : L1.length = L2.length) :
    ((L1.zip L2).flatMap fun t => t.2) = L2.flatten := by
  induction L1 generalizing L2 with
  | nil =>
    cases L2 with
    | nil => simp
    | cons y ys => simp at h
  | cons x xs ih =>
    cases L2 with
    | nil => simp at h
    | cons y ys =>
      simp only [List.length_cons, Nat.add_right_cancel_iff] at h
      simp [ih h]

lemma generationParams_flat_jobs (cfg : Config) (params : List α)
    (hp : params.length = cfg.categories) (hs : 1 ≤ splitsOf cfg) :
    ((generationParams cfg params).flatMap fun t => t.2.2.zip (t.1.zip t.2.1)) =
      (List.range' 0 (jobParams cfg params).length).zip
        ((jobParams cfg params).zip (jobWeights cfg)) := by
  have hchunklen : (arraySplit (jobParams cfg params) (splitsOf cfg)).length =
      (arraySplit (jobWeights cfg) (splitsOf cfg)).length := by
    rw [arraySplit_length _ hs, arraySplit_length _ hs]
  rw [generationParams, assignIndices_flatMap_jobs _ _
    (zip_map_len_eq (arraySplit_chunk_lengths cfg params hp hs))]
  rw [arraySplit_zip_map_len cfg params hs, arraySplit_map_length _ hs,
    splitSizes_sum hs, zip_flatMap_fst hchunklen, zip_flatMap_snd hchunklen,
    arraySplit_flatten _ hs, arraySplit_flatten _ hs]

lemma generationParams_flat_params (cfg : Config) (params : List α)
    (hs : 1 ≤ splitsOf cfg) :
    ((generationParams cfg params).flatMap fun t => t.1) =
      jobParams cfg params := by
  have hchunklen : (arraySplit (jobParams cfg params) (splitsOf cfg)).length =
      (arraySplit (jobWeights cfg) (splitsOf cfg)).length := by
    rw [arraySplit_length _ hs, arraySplit_length _ hs]
  rw [generationParams, assignIndices_flatMap_fst, zip_flatMap_fst hchunklen,
    arraySplit_flatten _ hs]

lemma generationParams_flat_weights (cfg : Config) (params : List α)
    (hs : 1 ≤ splitsOf cfg) :
    ((generationParams cfg params).flatMap fun t => t.2.1) =
      jobWeights cfg := by
  have hchunklen : (arraySplit (jobParams cfg params) (splitsOf cfg)).length =
      (arraySplit (jobWeights cfg) (splitsOf cfg)).length := by
    rw [arraySplit_length _ hs, arraySplit_length _ hs]
  rw [generationParams, assignIndices_flatMap_snd, zip_flatMap_snd hchunklen,
    arraySplit_flatten _ hs]

lemma generationParams_batch_sizes {cfg : Config} {params : List α}
    (hs : 1 ≤ splitsOf cfg)
    {t : List α × List (List ℚ) × List Nat}
    (ht : t ∈ generationParams cfg params) :
    t.1.length = (jobParams cfg params).length / splitsOf cfg ∨
    t.1.length = (jobParams cfg params).length / splitsOf cfg + 1 := by
  have hmem := assignIndices_mem ht
  have h1 : t.1 ∈ arraySplit (jobParams cfg params) (splitsOf cfg) :=
    ((List.of_mem_zip hmem).1 : _)
  exact arraySplit_mem_length hs h1

lemma ifsRun_state (maps : CatParams) (wv : List ℚ) (height width : Int) :
    ∀ (n : Nat) (s : Nat) (pt : ℚ × ℚ),
      (ifsRun maps wv height width n s pt).2 = lcgIter n s := by
  intro n
  induction n with
  | zero => intro s pt; rfl
  | succ m ih =>
    intro s pt
    simp only [ifsRun, lcgIter]
    exact ih _ _

lemma generateImageS_state (rng : Nat) (maps : CatParams) (iterations : Nat)
    (height width : Int) (wv : List ℚ) :
    (generateImageS rng maps iterations height width wv).2 =
      lcgIter iterations rng := by
  rw [generateImageS, ifsRun_state]

/-- The projection of one generator step to its residue modulo 128. -/
def lcg128 (s : Nat) : Nat := (109 * s + 57) % 128

/-- Iterated mod-128 generator step. -/
def lcg128Iter : Nat → Nat → Nat
  | 0, s => s
  | n + 1, s => lcg128Iter n (lcg128 s)

lemma randNext_mod128 (s : Nat) :
    (randNext s).2 % 128 = lcg128 (s % 128) := by
  show (1103515245 * s + 12345) % 2147483648 % 128 = (109 * (s % 128) + 57) % 128
  have hd : (128 : Nat) ∣ 2147483648 := by norm_num
  rw [Nat.mod_mod_of_dvd _ hd]
  conv_lhs => rw [Nat.add_mod, Nat.mul_mod]
  conv_rhs => rw [Nat.add_mod, Nat.mul_mod]
  norm_num

lemma lcgIter_mod128 : ∀ (n s : Nat),
    lcgIter n s % 128 = lcg128Iter n (s % 128) := by
  intro n
  induction n with
  | zero => intro s; rfl
  | succ m ih =>
    intro s
    simp only [lcgIter, lcg128Iter, ih, randNext_mod128]

lemma lcg128Iter_add (m n s : Nat) :
    lcg128Iter (m + n) s = lcg128Iter n (lcg128Iter m s) := by
  induction m generalizing s with
  | zero => simp [lcg128Iter]
  | succ k ih =>
    rw [show k + 1 + n = (k + n) + 1 from by omega]
    simp only [lcg128Iter]
    exact ih _

set_option maxRecDepth 4000 in
lemma lcg128Iter_cycle : ∀ (m : Nat), lcg128Iter (128 * m) 0 = 0 := by
  intro m
  induction m with
  | zero => rfl
  | succ k ih =>
    rw [show 128 * (k + 1) = 128 * k + 128 from by ring, lcg128Iter_add, ih]
    decide

set_option maxRecDepth 4000 in
lemma lcgIter_200000_ne (s : Nat) (hs : s % 128 = 0) :
    lcgIter 200000 s ≠ s := by
  intro h
  have h1 : lcgIter 200000 s % 128 = 0 := by rw [h, hs]
  rw [lcgIter_mod128, hs] at h1
  rw [show (200000 : Nat) = 128 * 1562 + 64 from by norm_num,
    lcg128Iter_add, lcg128Iter_cycle] at h1
  exact absurd h1 (by decide)

lemma pipelineOutputs_eq (cfg : Config)
    (colorizeF : List (Int × Int) → List (Int × Int))
    (backgroundColors : List ℚ) (params : List CatParams)
    (hp : params.length = cfg.categories) (hs : 1 ≤ splitsOf cfg) :
    pipelineOutputs cfg colorizeF backgroundColors params =
      ((List.range' 0 (jobParams cfg params).length).zip
        ((jobParams cfg params).zip (jobWeights cfg))).map
        (fun t => (t.1, generateOneImage cfg colorizeF backgroundColors
          t.1 t.2.1 t.2.2)) := by
  rw [pipelineOutputs]
  simp only [generateImageBatch]
  rw [← List.map_flatMap, generationParams_flat_jobs cfg params hp hs]

lemma genCatGo_run (th : ℚ) (cap np s0 : Nat) :
    ∀ (fuel i : Nat) (p : CatParams) (px : ℚ), cap - i < fuel → px < th →
    i < cap →
    ∃ j, i ≤ j ∧ j < cap ∧
      genCatGo th cap np fuel i p px (candState np s0 i) = (candAt np s0 j).1 ∧
      (∀ m, i ≤ m → m < j → (candAt np s0 m).2 < th) ∧
      (th ≤ (candAt np s0 j).2 ∨ j = cap - 1) := by
  intro fuel
  induction fuel with
  | zero => intro i p px hfuel hpx hi; omega
  | succ fuel ih =>
    intro i p px hfuel hpx hi
    rw [genCatGo, if_pos ⟨hpx, hi⟩]
    have hq : (generateCategoryStep np (candState np s0 i)).1 =
      (candAt np s0 i).1 := by simp only [candAt]
    have hd : (generateCategoryStep np (candState np s0 i)).2.1 =
      (candAt np s0 i).2 := by simp only [candAt]
    have hs2 : (generateCategoryStep np (candState np s0 i)).2.2 =
      candState np s0 (i + 1) := by simp only [candState]
    by_cases hacc : (generateCategoryStep np (candState np s0 i)).2.1 < th ∧
        i + 1 < cap
    · have hfuel2 : cap - (i + 1) < fuel := by omega
      obtain ⟨j, hj1, hj2, hj3, hj4, hj5⟩ := ih (i + 1)
        (generateCategoryStep np (candState np s0 i)).1
        (generateCategoryStep np (candState np s0 i)).2.1 hfuel2 hacc.1 hacc.2
      refine ⟨j, by omega, hj2, ?_, ?_, hj5⟩
      · show genCatGo th cap np fuel (i + 1)
          (generateCategoryStep np (candState np s0 i)).1
          (generateCategoryStep np (candState np s0 i)).2.1
          (generateCategoryStep np (candState np s0 i)).2.2 = (candAt np s0 j).1
        rw [hs2]; exact hj3
      · intro m hm1 hm2
        rcases Nat.eq_or_lt_of_le hm1 with rfl | hm
        · rw [← hd]; exact hacc.1
        · exact hj4 m hm hm2
    · have hres : genCatGo th cap np fuel (i + 1)
          (generateCategoryStep np (candState np s0 i)).1
          (generateCategoryStep np (candState np s0 i)).2.1
          (generateCategoryStep np (candState np s0 i)).2.2 =
          (generateCategoryStep np (candState np s0 i)).1 := by
        cases fuel with
        | zero => rfl
        | succ f => rw [genCatGo, if_neg hacc]
      refine ⟨i, le_refl i, hi, ?_, ?_, ?_⟩
      · show genCatGo th cap np fuel (i + 1)
          (generateCategoryStep np (candState np s0 i)).1
          (generateCategoryStep np (candState np s0 i)).2.1
          (generateCategoryStep np (candState np s0 i)).2.2 = (candAt np s0 i).1
        rw [hres, hq]
      · intro m hm1 hm2; omega
      · rcases not_and_or.mp hacc with h1 | h2
        · left; rw [← hd]; exact not_lt.mp h1
        · right; omega

lemma generateCategory_spec (th : ℚ) (cap np rng : Nat) (hcap : 1 ≤ cap)
    (hth : (-1 : ℚ) < th) :
    ∃ j, j < cap ∧ generateCategory th cap np rng = (candAt np rng j).1 ∧
      (∀ m, m < j → (candAt np rng m).2 < th) ∧
      (th ≤ (candAt np rng j).2 ∨ j = cap - 1) := by
  obtain ⟨j, -, hj2, hj3, hj4, hj5⟩ := genCatGo_run th cap np rng (cap + 1) 0
    [] (-1) (by omega) hth hcap
  exact ⟨j, hj2, hj3, fun m hm => hj4 m (Nat.zero_le m) hm, hj5⟩

lemma candAt_density (np s j : Nat) :
    ∃ k : Nat, (candAt np s j).2 = (k : ℚ) / 262144 := by
  refine ⟨countNonzero 512 512 (generateImageS
    (makeCandidate (candState np s j)).2
    (makeCandidate (candState np s j)).1 np 512 512 []).1, ?_⟩
  show (candAt np s j).2 = _
  rw [candAt]
  simp only [generateCategoryStep]
  norm_num

lemma density_fifth_strict {k : Nat}
    (h : (1/5 : ℚ) ≤ (k : ℚ) / 262144) : (1/5 : ℚ) < (k : ℚ) / 262144 := by
  rcases h.lt_or_eq with hlt | heq
  · exact hlt
  · exfalso
    have h5 : (k : ℚ) * 5 = 262144 := by
      field_simp at heq
      linarith
    have h5n : k * 5 = 262144 := by exact_mod_cast h5
    omega

lemma makeRows_det : ∀ (n s : Nat), ∀ r ∈ (makeRows n s).1,
    r.p = |r.a * r.d - r.b * r.c| := by
  intro n
  induction n with
  | zero => intro s r hr; simp [makeRows] at hr
  | succ m ih =>
    intro s r hr
    simp only [makeRows, List.mem_cons] at hr
    rcases hr with rfl | hr
    · rfl
    · exact ih _ r hr

lemma sum_map_proj_div (l : List AffineRow) (T : ℚ) :
    (l.map (fun r => r.p / T)).sum = (l.map (fun r => r.p)).sum / T := by
  induction l with
  | nil => simp
  | cons x xs ih => simp [ih, add_div]

lemma makeCandidate_weights (s : Nat) :
    (∀ r ∈ (makeCandidate s).1, 0 ≤ r.p) ∧
    ((makeCandidate s).1.map (fun r => r.p)).sum =
      detSum (makeCandidate s).1 /
        (1/100000 + detSum (makeCandidate s).1) ∧
    ((makeCandidate s).1.map (fun r => r.p)).sum < 1 := by
  have hdet := makeRows_det (randIntR s 2 7).1 (randIntR s 2 7).2
  have hS : ((makeRows (randIntR s 2 7).1 (randIntR s 2 7).2).1.map
      (fun r => r.p)).sum =
      detSum (makeRows (randIntR s 2 7).1 (randIntR s 2 7).2).1 := by
    rw [detSum]
    exact congrArg List.sum (List.map_congr_left hdet)
  have hS0 : 0 ≤ detSum (makeRows (randIntR s 2 7).1 (randIntR s 2 7).2).1 := by
    refine List.sum_nonneg ?_
    intro x hx
    obtain ⟨r, -, rfl⟩ := List.mem_map.mp hx
    exact abs_nonneg _
  have hT : 0 < 1/100000 +
      detSum (makeRows (randIntR s 2 7).1 (randIntR s 2 7).2).1 := by
    linarith
  have hcand : (makeCandidate s).1 =
      (makeRows (randIntR s 2 7).1 (randIntR s 2 7).2).1.map
        (fun r => { r with p := r.p / (1/100000 +
          ((makeRows (randIntR s 2 7).1 (randIntR s 2 7).2).1.map
            (fun r => r.p)).sum) }) := by simp only [makeCandidate]
  have hdetPres : detSum (makeCandidate s).1 =
      detSum (makeRows (randIntR s 2 7).1 (randIntR s 2 7).2).1 := by
    rw [hcand, detSum, detSum, List.map_map]
    rfl
  refine ⟨?_, ?_, ?_⟩
  · intro r hr
    rw [hcand] at hr
    obtain ⟨r0, hr0, rfl⟩ := List.mem_map.mp hr
    have : r0.p = |r0.a * r0.d - r0.b * r0.c| := hdet r0 hr0
    show 0 ≤ r0.p / _
    rw [hS]
    exact div_nonneg (this ▸ abs_nonneg _) hT.le
  · rw [hdetPres, hcand, List.map_map]
    simp only [Function.comp_def]
    rw [sum_map_proj_div, hS]
  · rw [hcand, List.map_map]
    simp only [Function.comp_def]
    rw [sum_map_proj_div, hS, div_lt_one hT]
    linarith

/-- C1: for every requested image count `N > 0` (any configuration accepted
by `__init__`, any worker count `k ≥ 1`, and one sampled parameter set per
category), the work-partitioning step of `generate_dataset` produces exactly
`N` jobs; the global indices assigned across the batches are exactly
`0..N-1` in order, and the job at global index `i` carries the `i`-th entry
of the truncated parameter and weight arrays — index assignment is the
position in the truncated job list, independent of the worker count. -/
theorem C1_partition_indices (o : String) (c : Int) (shape : Int × Int)
    (k : Nat) (cfg : Config) (params : List CatParams)
    (hk : 1 ≤ k)
    (hcfg : initGenerator o c shape k true = .ok cfg)
    (hp : params.length = cfg.categories) :
    ((generationParams cfg params).map fun t => t.2.2.length).sum = cfg.count ∧
    ((generationParams cfg params).flatMap fun t => t.2.2) =
      List.range cfg.count ∧
    ((generationParams cfg params).flatMap fun t => t.2.2.zip (t.1.zip t.2.1)) =
      (List.range cfg.count).zip
        ((jobParams cfg params).zip (jobWeights cfg)) := by
  obtain ⟨hc1, hprov, hw1, hi1, hcat1, hcpu⟩ := initGenerator_good hcfg
  have hjp : (jobParams cfg params).length = cfg.count :=
    jobParams_length cfg params (by rw [hp]; exact hprov)
  have hs : 1 ≤ splitsOf cfg := by
    rw [splitsOf, hcpu]
    omega
  refine ⟨?_, ?_, ?_⟩
  · rw [generationParams_idxlen_sum cfg params hs, hjp]
  · rw [generationParams_flat_idx cfg params hs, hjp, List.range_eq_range']
  · rw [generationParams_flat_jobs cfg params hp hs, hjp, List.range_eq_range']

/-- Witness for C1 at the concrete run `initGenerator "o" 3 (2, 2) 2 true`
with one category parameter set. -/
theorem C1_witness :
    (1 ≤ 2) ∧
    (initGenerator "o" 3 (2, 2) 2 true = .ok exampleConfig) ∧
    (([([] : CatParams)] : List CatParams).length = exampleConfig.categories) ∧
    ((generationParams exampleConfig [([] : CatParams)]).flatMap
      fun t => t.2.2) = List.range exampleConfig.count :=
  ⟨by decide, by rfl, by rfl,
    (C1_partition_indices "o" 3 (2, 2) 2 exampleConfig [([] : CatParams)]
      (by decide) (by rfl) (by rfl)).2.1⟩

/-- C2: for every count `N ≥ 1` and weight-vector count `W ≥ 1` (the
planner itself truncates `W` to `N` when `N < W`), the planner outputs
satisfy `categories * instances * W_truncated ≥ N`, and both `categories`
and `instances` are at least 1. -/
theorem C2_planner_over_provisions (count w : Nat) (hc : 1 ≤ count)
    (hw : 1 ≤ w) :
    count ≤ (initializeParams count w).categories *
      (initializeParams count w).instances *
      (initializeParams count w).weightsCount ∧
    1 ≤ (initializeParams count w).instances ∧
    1 ≤ (initializeParams count w).categories :=
  initializeParams_spec hc hw

/-- Witness for C2 at `N = 50` with the program's weight-vector count
`1 + 4 * 6 = 25`. -/
theorem C2_witness :
    (1 ≤ 50) ∧ (1 ≤ (createWeights NUM_PARAMS).length) ∧
    50 ≤ (initializeParams 50 (createWeights NUM_PARAMS).length).categories *
      (initializeParams 50 (createWeights NUM_PARAMS).length).instances *
      (initializeParams 50 (createWeights NUM_PARAMS).length).weightsCount :=
  ⟨by decide, by decide,
    (C2_planner_over_provisions 50 (createWeights NUM_PARAMS).length
      (by decide) (by decide)).1⟩

/-- C5: for every accepted configuration and worker count `k ≥ 1`, the
truncated job list is split into exactly `min(k, N)` contiguous batches
whose sizes differ by at most 1, and concatenating the batches in batch
order reproduces the truncated parameter and weight arrays exactly. -/
theorem C5_balanced_batches (o : String) (c : Int) (shape : Int × Int)
    (k : Nat) (cfg : Config) (params : List CatParams)
    (hk : 1 ≤ k)
    (hcfg : initGenerator o c shape k true = .ok cfg)
    (hp : params.length = cfg.categories) :
    (generationParams cfg params).length = min k cfg.count ∧
    ((generationParams cfg params).flatMap fun t => t.1) =
      jobParams cfg params ∧
    ((generationParams cfg params).flatMap fun t => t.2.1) = jobWeights cfg ∧
    (∀ t1 ∈ generationParams cfg params, ∀ t2 ∈ generationParams cfg params,
      t1.1.length ≤ t2.1.length + 1) := by
  obtain ⟨hc1, hprov, hw1, hi1, hcat1, hcpu⟩ := initGenerator_good hcfg
  have hs : 1 ≤ splitsOf cfg := by
    rw [splitsOf, hcpu]
    omega
  have hsplit : splitsOf cfg = min k cfg.count := by
    rw [splitsOf, hcpu, min_assoc, min_self]
  refine ⟨?_, generationParams_flat_params cfg params hs,
    generationParams_flat_weights cfg params hs, ?_⟩
  · rw [generationParams_length cfg params hs, hsplit]
  · intro t1 ht1 t2 ht2
    rcases generationParams_batch_sizes hs ht1 with h1 | h1 <;>
      rcases generationParams_batch_sizes hs ht2 with h2 | h2 <;> omega

/-- Witness for C5 at the concrete run `initGenerator "o" 3 (2, 2) 2 true`:
3 jobs split into `min(2, 3) = 2` batches. -/
theorem C5_witness :
    (1 ≤ 2) ∧
    (initGenerator "o" 3 (2, 2) 2 true = .ok exampleConfig) ∧
    (generationParams exampleConfig [([] : CatParams)]).length =
      min 2 exampleConfig.count :=
  ⟨by decide, by rfl,
    (C5_balanced_batches "o" 3 (2, 2) 2 exampleConfig [([] : CatParams)]
      (by decide) (by rfl) (by rfl)).1⟩

/-- C3: the image pipeline output is invariant under the worker count —
every job's raster is computed from a generator seeded by the job's global
index alone (`Random(i)` at line 122), so two runs over the same truncated
job list with different worker counts (hence different batch boundaries)
produce identical `(index, image)` sequences; in particular re-running with
the same index and parameters is bit-identical. -/
theorem C3_worker_count_independence (cfg : Config) (k1 k2 : Nat)
    (colorizeF : List (Int × Int) → List (Int × Int))
    (backgroundColors : List ℚ) (params : List CatParams)
    (hp : params.length = cfg.categories) (hc : 1 ≤ cfg.count)
    (h1 : 1 ≤ k1) (h2 : 1 ≤ k2) :
    pipelineOutputs { cfg with cpuCount := k1 } colorizeF backgroundColors
      params =
    pipelineOutputs { cfg with cpuCount := k2 } colorizeF backgroundColors
      params := by
  have hs1 : 1 ≤ splitsOf { cfg with cpuCount := k1 } := by
    simp only [splitsOf]
    omega
  have hs2 : 1 ≤ splitsOf { cfg with cpuCount := k2 } := by
    simp only [splitsOf]
    omega
  rw [pipelineOutputs_eq { cfg with cpuCount := k1 } colorizeF
      backgroundColors params hp hs1,
    pipelineOutputs_eq { cfg with cpuCount := k2 } colorizeF
      backgroundColors params hp hs2]
  rfl

/-- Witness for C3: a concrete two-job configuration run with 1 worker and
with 2 workers. -/
theorem C3_witness :
    (([[⟨1/2, 0, 0, 1/2, 1/4, 1/4, 1⟩]] : List CatParams).length =
      smallConfig.categories) ∧
    (1 ≤ smallConfig.count) ∧ (1 ≤ 1) ∧ (1 ≤ 2) ∧
    pipelineOutputs { smallConfig with cpuCount := 1 } id [1/2, 1/3]
      [[⟨1/2, 0, 0, 1/2, 1/4, 1/4, 1⟩]] =
    pipelineOutputs { smallConfig with cpuCount := 2 } id [1/2, 1/3]
      [[⟨1/2, 0, 0, 1/2, 1/4, 1/4, 1⟩]] :=
  ⟨by rfl, by decide, by decide, by decide,
    C3_worker_count_independence smallConfig 1 2 id [1/2, 1/3]
      [[⟨1/2, 0, 0, 1/2, 1/4, 1/4, 1⟩]] (by rfl) (by decide) (by decide)
      (by decide)⟩

/-- C4: for every per-category seed, the rejection-sampling loop of
`_generate_category` performs at most `cap` attempts and returns without
raising (it is a total function): there is an attempt `j < cap` whose
candidate is returned, every earlier candidate fell below the density
threshold `0.2`, and either candidate `j` strictly exceeds the threshold
(the first acceptable candidate — equality is impossible because densities
are multiples of `1/262144`) or `j` is the final attempt `cap - 1`, whose
candidate is returned regardless. -/
theorem C4_sampler_terminates (cap np rng : Nat) (hcap : 1 ≤ cap) :
    ∃ j, j < cap ∧
      generateCategory (1/5) cap np rng = (candAt np rng j).1 ∧
      (∀ m, m < j → (candAt np rng m).2 < 1/5) ∧
      ((1/5 : ℚ) < (candAt np rng j).2 ∨ j = cap - 1) := by
  obtain ⟨j, hj1, hj2, hj3, hj4⟩ := generateCategory_spec (1/5) cap np rng
    hcap (by norm_num)
  refine ⟨j, hj1, hj2, hj3, ?_⟩
  rcases hj4 with h | h
  · left
    obtain ⟨kd, hkd⟩ := candAt_density np rng j
    rw [hkd] at h ⊢
    exact density_fifth_strict h
  · right
    exact h

/-- Witness for C4 with cap 1, point budget 0, seed 0. -/
theorem C4_witness :
    (1 ≤ 1) ∧
    ∃ j, j < 1 ∧
      generateCategory (1/5) 1 0 0 = (candAt 0 0 j).1 ∧
      (∀ m, m < j → (candAt 0 0 m).2 < 1/5) ∧
      ((1/5 : ℚ) < (candAt 0 0 j).2 ∨ j = 1 - 1) :=
  ⟨by decide, C4_sampler_terminates 1 0 0 (by decide)⟩

/-- C6 (amended): for every candidate parameter set produced by the
sampler's candidate constructor (lines 159–168), the selection weights are
all non-negative, and their sum equals `S / (10⁻⁵ + S)` where `S` is the
sum of the absolute determinants `|a*d - b*c|` — strictly less than 1,
because `sum_proba` is initialized to `1e-5` before the determinants are
accumulated.  The sum is within `10⁻⁵` of 1 only when `S` is large enough;
it is not 1 and can be arbitrarily close to 0 for near-singular maps. -/
theorem C6_amended_weights (s : Nat) :
    (∀ r ∈ (makeCandidate s).1, 0 ≤ r.p) ∧
    ((makeCandidate s).1.map (fun r => r.p)).sum =
      detSum (makeCandidate s).1 / (1/100000 + detSum (makeCandidate s).1) ∧
    ((makeCandidate s).1.map (fun r => r.p)).sum < 1 :=
  makeCandidate_weights s

/-- C6 counterexample: the parameter set actually returned by the sampler
run `generateCategory (1/5) 1 0 (randomInit 0)` has selection weights
summing to strictly less than `1 - 10⁻⁶` — more than a million times the
double-precision rounding error, so the weights do not sum to 1 within any
floating tolerance. -/
theorem C6_counterexample :
    ((generateCategory (1/5) 1 0 (randomInit 0)).map (fun r => r.p)).sum <
      1 - 1/1000000 := by
  norm_num [generateCategory, genCatGo, generateCategoryStep, generateImageS,
    ifsRun, countNonzero, makeCandidate, makeRows, makeRow, uniformR,
    randIntR, randNext, randomInit, abs_of_pos, abs_of_nonpos]

/-- C7 (amended): whenever the sampler exhausts its attempt cap without any
candidate reaching the density threshold, the LAST candidate generated (not
the best one) is returned, without raising; no degeneracy counter exists in
`_generate_category` — nothing in its output records that the threshold was
never met. -/
theorem C7_amended_silent_degradation (th : ℚ) (cap np rng : Nat)
    (hcap : 1 ≤ cap) (hth : (-1 : ℚ) < th)
    (hdeg : ∀ j, j < cap → (candAt np rng j).2 < th) :
    generateCategory th cap np rng = (candAt np rng (cap - 1)).1 := by
  obtain ⟨j, hj1, hj2, hj3, hj4⟩ := generateCategory_spec th cap np rng
    hcap hth
  rcases hj4 with h | rfl
  · exact absurd h (not_le.mpr (hdeg j hj1))
  · exact hj2

/-- Witness for the amended C7: with threshold 2 no candidate density (a
value in `[0, 1]`) can reach the threshold, and the sampler returns the
final attempt's candidate. -/
theorem C7_witness :
    (1 ≤ 1) ∧ ((-1 : ℚ) < 2) ∧ (∀ j, j < 1 → (candAt 0 0 j).2 < 2) ∧
    generateCategory 2 1 0 0 = (candAt 0 0 (1 - 1)).1 := by
  have hdeg : ∀ j, j < 1 → (candAt 0 0 j).2 < 2 := by
    intro j hj
    interval_cases j
    norm_num [candAt, candState, generateCategoryStep, generateImageS,
      ifsRun, countNonzero]
  exact ⟨by decide, by norm_num, hdeg,
    C7_amended_silent_degradation 2 1 0 0 (by decide) (by norm_num) hdeg⟩

/-- C7 counterexample: a degenerate run (threshold 2 — cap exhausted with
every candidate below threshold) and an accepted run (threshold 0 — first
candidate accepted) return the identical value, so no degeneracy counter or
any other observable signal distinguishes them; the claim that a counter is
incremented is false of the code, which returns only the parameter array. -/
theorem C7_counterexample :
    generateCategory 2 1 0 0 = generateCategory 0 1 0 0 ∧
    (candAt 0 0 0).2 < 2 ∧ (0 : ℚ) ≤ (candAt 0 0 0).2 := by
  obtain ⟨j1, hj1, he1, -, -⟩ := generateCategory_spec 2 1 0 0 (by norm_num)
    (by norm_num)
  obtain ⟨j2, hj2, he2, -, -⟩ := generateCategory_spec 0 1 0 0 (by norm_num)
    (by norm_num)
  have e1 : j1 = 0 := by omega
  have e2 : j2 = 0 := by omega
  subst e1
  subst e2
  refine ⟨by rw [he1, he2], ?_, ?_⟩ <;>
    norm_num [candAt, candState, generateCategoryStep, generateImageS,
      ifsRun, countNonzero]

/-- C8 (amended): the background color used by the augmentation step is
drawn deterministically from a FRESH generator seeded with the job's global
index (`Random(i)` at line 131) — the first draw of that generator indexes
the palette — so it is the same for every job with that index regardless of
category parameters, weight vector or colorization, but it does NOT
continue the synthesis generator's stream. -/
theorem C8_amended_fresh_seed (cfg : Config)
    (colorizeF colorizeG : List (Int × Int) → List (Int × Int))
    (backgroundColors : List ℚ) (i : Nat) (p q : CatParams)
    (w v : List ℚ) :
    (generateOneImage cfg colorizeF backgroundColors i p w).bgColor =
      backgroundColors.getD
        ((randNext (randomInit i)).1 % backgroundColors.length) 0 ∧
    (generateOneImage cfg colorizeF backgroundColors i p w).bgColor =
      (generateOneImage cfg colorizeG backgroundColors i q v).bgColor :=
  ⟨rfl, rfl⟩

/-- C8 counterexample: for the configuration produced by `initGenerator`
(200000 synthesis iterations), the generator state handed to `augment` —
a fresh `Random(i)` — is NOT the state obtained by continuing the synthesis
generator's stream: after 200000 draws the stream is elsewhere. -/
theorem C8_counterexample :
    ∃ cfg : Config, initGenerator "out" 1 (64, 64) 4 true = .ok cfg ∧
      randomInit 0 ≠ (generateImageS (randomInit 0)
        [⟨0, 0, 0, 0, 0, 0, 1⟩] cfg.iterations cfg.height cfg.width
        [1, 1, 1, 1, 1, 1]).2 := by
  refine ⟨_, rfl, ?_⟩
  rw [generateImageS_state]
  show randomInit 0 ≠ lcgIter 200000 (randomInit 0)
  have h0 : randomInit 0 = 0 := rfl
  rw [h0]
  exact (lcgIter_200000_ne 0 rfl).symm

/-- C9 (amended): construction succeeds exactly when the requested count is
positive and the colorization-model files are obtainable; the `assert
0 < count` is the first statement of `__init__`, so a non-positive count is
rejected before any sampling work, but non-positive height/width are stored
without validation and do NOT fail construction. -/
theorem C9_amended_validation (o : String) (c : Int) (shape : Int × Int)
    (k : Nat) (a : Bool) :
    (∃ cfg, initGenerator o c shape k a = .ok cfg) ↔ (0 < c ∧ a = true) := by
  constructor
  · rintro ⟨cfg, h⟩
    obtain ⟨h1, h2, -⟩ := initGenerator_eq_ok h
    exact ⟨h1, h2⟩
  · rintro ⟨h1, h2⟩
    subst h2
    refine ⟨{ outputDir := o, count := c.toNat, height := shape.1,
              width := shape.2, cpuCount := min k c.toNat,
              weights := (createWeights NUM_PARAMS).take
                (initializeParams c.toNat
                  (createWeights NUM_PARAMS).length).weightsCount,
              threshold := 1/5, iterations := 200000,
              numOfPoints := 100000,
              instances := (initializeParams c.toNat
                (createWeights NUM_PARAMS).length).instances,
              categories := (initializeParams c.toNat
                (createWeights NUM_PARAMS).length).categories }, ?_⟩
    unfold initGenerator
    rw [if_neg (by omega), if_neg (by simp)]

/-- C9 counterexample: construction succeeds for shape `(0, -5)` — the
claim that non-positive image dimensions fail construction is false of the
code, which never checks them. -/
theorem C9_counterexample :
    ∃ cfg : Config, initGenerator "out" 1 (0, -5) 4 true = .ok cfg ∧
      cfg.height = 0 ∧ cfg.width = -5 :=
  ⟨_, rfl, rfl, rfl⟩

/-- C10: when `save_dir` exists and the underlying conversion fails, `patch`
propagates the error and the original contents of `save_dir` are untouched:
the conversion ran only inside the freshly created temporary directory
(which is removed again by the registered `on_error_do`), and the
`rmtree(save_dir); os.replace(...)` pair runs only after a successful
conversion. -/
theorem C10_patch_preserves_on_error
    (conv : String → Converter.FS → Except String Nat × Converter.FS)
    (fs : Converter.FS) (saveDir tmpdir : String) (d0 : Nat) (e : String)
    (hsave : fs saveDir = some d0)
    (hne : tmpdir ≠ saveDir)
    (hfail : (conv tmpdir (Converter.setDir fs tmpdir (some 0))).1 =
      .error e)
    (hframe : ∀ pth, pth ≠ tmpdir →
      (conv tmpdir (Converter.setDir fs tmpdir (some 0))).2 pth =
        Converter.setDir fs tmpdir (some 0) pth) :
    (Converter.patch conv fs saveDir tmpdir).1 = .error e ∧
    (Converter.patch conv fs saveDir tmpdir).2 saveDir = some d0 ∧
    (Converter.patch conv fs saveDir tmpdir).2 tmpdir = none := by
  have hpatch : Converter.patch conv fs saveDir tmpdir =
      (.error e, Converter.setDir
        (conv tmpdir (Converter.setDir fs tmpdir (some 0))).2 tmpdir none) := by
    unfold Converter.patch
    rw [if_neg (by simp [hsave])]
    simp only [hfail]
  rw [hpatch]
  refine ⟨rfl, ?_, ?_⟩
  · show Converter.setDir
      (conv tmpdir (Converter.setDir fs tmpdir (some 0))).2 tmpdir none
        saveDir = some d0
    rw [Converter.setDir, if_neg (Ne.symm hne), hframe saveDir (Ne.symm hne),
      Converter.setDir, if_neg (Ne.symm hne), hsave]
  · show Converter.setDir
      (conv tmpdir (Converter.setDir fs tmpdir (some 0))).2 tmpdir none
        tmpdir = none
    rw [Converter.setDir, if_pos rfl]

/-- Witness for C10: a concrete filesystem with one directory `"data"` and
a conversion that always fails; the patched filesystem still maps `"data"`
to its original contents. -/
theorem C10_witness :
    ((fun pth => if pth = "data" then some 7 else none :
      Converter.FS) "data" = some 7) ∧
    ("data.tmp" ≠ "data") ∧
    (Converter.patch (fun _ g => (.error "boom", g))
      (fun pth => if pth = "data" then some 7 else none)
      "data" "data.tmp").2 "data" = some 7 :=
  ⟨by decide, by decide,
    (C10_patch_preserves_on_error (fun _ g => (.error "boom", g))
      (fun pth => if pth = "data" then some 7 else none) "data" "data.tmp"
      7 "boom" (by decide) (by decide) rfl (fun pth hp => rfl)).2.1⟩

end Datumaro
